import Mathlib

/-!
Shallow embedding of the pathsixcrm backend visibility / query-composition
engine (src/backend/app/routes/clients.py, leads.py, projects.py), together
with proofs of the spec's testable properties.

Conventions of the embedding:
* ids and tenant ids are Nat; timestamps (datetime.utcnow values) are Int
  measured in seconds, so `timedelta(days=n)` is `n * 86400`.
* SQLAlchemy queries over a table become filters over the corresponding list
  in the `DB` record; `.first()` becomes `List.find?`; mutating the fetched
  row followed by `session.commit()` becomes `replaceFirst` on the list.
* nullable columns are `Option _`; a route returning an HTTP error is
  `Except ApiError _`, and an `Except.error` result carries no new `DB`,
  matching a request whose transaction was not committed.
-/

namespace PathSixCRM

/-- HTTP-style error classes used by the routes. -/
inductive ApiError
  | notFound
  | badRequest
  | forbidden
  | serverError
deriving DecidableEq, Repr

/-- HTTP status code of each error class. -/
def ApiError.status : ApiError → Nat
  | .notFound => 404
  | .badRequest => 400
  | .forbidden => 403
  | .serverError => 500

/-- app.models.User: the authenticated principal resolved by requires_auth. -/
structure User where
  id : Nat
  tenant_id : Nat
  email : String
  is_active : Bool
  roles : List String
deriving DecidableEq, Repr

/-- Role check written in the routes as any(role.name == "admin" for role in user.roles). -/
def isAdmin (u : User) : Bool :=
  u.roles.any (· == "admin")

/-- app.models.Client. -/
structure Client where
  id : Nat
  tenant_id : Nat
  name : Option String := none
  contact_person : Option String := none
  contact_title : Option String := none
  email : Option String := none
  phone : Option String := none
  phone_label : Option String := none
  secondary_phone : Option String := none
  secondary_phone_label : Option String := none
  address : Option String := none
  city : Option String := none
  state : Option String := none
  zip : Option String := none
  notes : Option String := none
  type : Option String := none
  created_by : Nat
  assigned_to : Option Nat := none
  created_at : Int
  updated_by : Option Nat := none
  updated_at : Option Int := none
  deleted_at : Option Int := none
  deleted_by : Option Nat := none
deriving DecidableEq, Repr

/-- app.models.Lead: same shape as Client plus lead_status / converted_on. -/
structure Lead where
  id : Nat
  tenant_id : Nat
  name : Option String := none
  contact_person : Option String := none
  contact_title : Option String := none
  email : Option String := none
  phone : Option String := none
  phone_label : Option String := none
  secondary_phone : Option String := none
  secondary_phone_label : Option String := none
  address : Option String := none
  city : Option String := none
  state : Option String := none
  zip : Option String := none
  notes : Option String := none
  created_by : Nat
  assigned_to : Option Nat := none
  created_at : Int
  updated_by : Option Nat := none
  updated_at : Option Int := none
  deleted_at : Option Int := none
  deleted_by : Option Nat := none
  lead_status : String := "open"
  converted_on : Option Int := none
deriving DecidableEq, Repr

/-- app.models.Interaction: belongs to exactly one of Client or Lead. -/
structure Interaction where
  id : Nat
  client_id : Option Nat := none
  lead_id : Option Nat := none
  contact_date : Int
deriving DecidableEq, Repr

/-- app.models.Project. -/
structure Project where
  id : Nat
  tenant_id : Nat
  project_name : Option String := none
  type : Option String := none
  project_status : String := "pending"
  project_description : Option String := none
  notes : Option String := none
  project_start : Option Int := none
  project_end : Option Int := none
  project_worth : Option Int := none
  client_id : Option Nat := none
  lead_id : Option Nat := none
  created_by : Nat
  created_at : Int
deriving DecidableEq, Repr

/-- app.models.ActivityLog: immutable audit record. -/
structure ActivityLog where
  tenant_id : Nat
  user_id : Nat
  action : String
  entity_type : String
  entity_id : Nat
  description : String
deriving DecidableEq, Repr

/-- The relational store: one list per table. -/
structure DB where
  users : List User
  clients : List Client
  leads : List Lead
  interactions : List Interaction
  projects : List Project
  activity_logs : List ActivityLog
deriving DecidableEq, Repr

/-- Replace the first element satisfying p (the row `.first()` returned and
the route then mutated before `session.commit()`). -/
def replaceFirst {α : Type} (p : α → Bool) (f : α → α) : List α → List α
  | [] => []
  | x :: xs => if p x then f x :: xs else x :: replaceFirst p f xs

/-- Remove the first element satisfying p (session.delete of the fetched row). -/
def removeFirst {α : Type} (p : α → Bool) : List α → List α
  | [] => []
  | x :: xs => if p x then xs else x :: removeFirst p xs

/-- Seconds in one day, so timedelta(days=n) is n * secondsPerDay. -/
def secondsPerDay : Int := 86400

/-- Row filter of the default client list (clients.py list_clients, lines 41-51):
tenant match, not soft-deleted, and assigned to the caller or unassigned and
created by the caller. -/
def clientListVisible (u : User) (c : Client) : Bool :=
  c.tenant_id == u.tenant_id && c.deleted_at == none &&
    (c.assigned_to == some u.id || (c.assigned_to == none && c.created_by == u.id))

/-- Row filter of the default lead list (leads.py list_leads, lines 22-32). -/
def leadListVisible (u : User) (l : Lead) : Bool :=
  l.tenant_id == u.tenant_id && l.deleted_at == none &&
    (l.assigned_to == some u.id || (l.assigned_to == none && l.created_by == u.id))

/-- Does some interaction belong to client cid with contact_date at or after
cutoff? Renders both the active-filter semijoin (join + distinct) and the
inactive-filter anti-join subquery (whose Interaction.client_id != None
conjunct is implied by client_id == some cid). -/
def hasRecentClientInteraction (ints : List Interaction) (cid : Nat) (cutoff : Int) : Bool :=
  ints.any fun i => i.client_id == some cid && decide (cutoff ≤ i.contact_date)

/-- Activity filtering of clients.py list_clients (lines 53-78): active keeps
clients with an interaction in the last 30 days, inactive keeps clients with
no interaction in the last 90 days, new keeps clients created in the last
7 days, anything else is a no-op. -/
def applyClientActivityFilter (ints : List Interaction) (af : String) (now : Int) (q : List Client) : List Client :=
  if af == "active" then
    q.filter fun c => hasRecentClientInteraction ints c.id (now - 30 * secondsPerDay)
  else if af == "inactive" then
    q.filter fun c => !hasRecentClientInteraction ints c.id (now - 90 * secondsPerDay)
  else if af == "new" then
    q.filter fun c => decide (now - 7 * secondsPerDay ≤ c.created_at)
  else q

/-- Most recent interaction date of a client: func.max(Interaction.contact_date)
grouped by client after the outer join, none when the client has no interactions. -/
def lastInteractionDate (ints : List Interaction) (cid : Nat) : Option Int :=
  ((ints.filter fun i => i.client_id == some cid).map (·.contact_date)).max?

/-- Modelled from the spec: app/database.py (the engine configuration) is not in
src, so the placement of NULL aggregates under ORDER BY ... DESC is taken from
spec section 4.3: an entity with no interactions is treated as the minimum
possible value and sorted after every entity that has one. a is allowed to
precede b exactly when a's key is at least b's under that order. -/
def optDescBefore : Option Int → Option Int → Bool
  | _, none => true
  | none, some _ => false
  | some x, some y => decide (y ≤ x)

/-- Ordering comparison for sort=alphabetical (name asc); NULL names first,
mirroring the none-smallest convention used for aggregates. -/
def optNameBefore : Option String → Option String → Bool
  | none, _ => true
  | some _, none => false
  | some a, some b => decide (a ≤ b)

/-- Sorting of clients.py list_clients (lines 80-91): newest/oldest by
created_at desc/asc, alphabetical by name asc, activity by the most recent
interaction date descending. -/
def applyClientSort (ints : List Interaction) (sort : String) (q : List Client) : List Client :=
  if sort == "newest" then
    q.mergeSort fun a b => decide (b.created_at ≤ a.created_at)
  else if sort == "oldest" then
    q.mergeSort fun a b => decide (a.created_at ≤ b.created_at)
  else if sort == "alphabetical" then
    q.mergeSort fun a b => optNameBefore a.name b.name
  else if sort == "activity" then
    q.mergeSort fun a b =>
      optDescBefore (lastInteractionDate ints a.id) (lastInteractionDate ints b.id)
  else q

/-- Sort-order validation of list_clients (lines 32-33): unknown keywords fall
back to newest. -/
def validateSort (s : String) : String :=
  if s ∈ ["newest", "oldest", "alphabetical", "activity"] then s else "newest"

/-- The composed client list query before pagination: visibility filter, then
activity filter, then sort. query.count() is its length. -/
def clientQuery (db : DB) (u : User) (sort af : String) (now : Int) : List Client :=
  applyClientSort db.interactions sort
    (applyClientActivityFilter db.interactions af now
      (db.clients.filter (clientListVisible u)))

/-- Offset computed by the route: (page - 1) * per_page, with no clamping. -/
def listOffset (page per_page : Int) : Int :=
  (page - 1) * per_page

/-- Python int(...) over a query-string value: optional surrounding
whitespace, optional sign, one or more digits; none models ValueError. -/
def pyInt (s : String) : Option Int :=
  let cs := ((s.toList.dropWhile (·.isWhitespace)).reverse.dropWhile (·.isWhitespace)).reverse
  match cs with
  | [] => none
  | c :: rest =>
    let (sign, digits) :=
      if c = '-' then ((-1 : Int), rest)
      else if c = '+' then ((1 : Int), rest)
      else ((1 : Int), c :: rest)
    if digits.isEmpty then none
    else if digits.all Char.isDigit then
      some (sign * (digits.foldl (fun acc ch => acc * 10 + (ch.toNat - 48)) (0 : Nat) : Nat))
    else none

/-- int(request.args.get(key, default)): the default applies only when the
parameter is absent; a present non-numeric value raises ValueError. -/
def parseIntArg (args : List (String × String)) (key : String) (dflt : Int) : Except String Int :=
  match args.lookup key with
  | none => .ok dflt
  | some s =>
    match pyInt s with
    | some n => .ok n
    | none => .error "ValueError"

/-- Response shape of list_clients. -/
structure ClientListResult where
  clients : List Client
  total : Nat
  page : Int
  per_page : Int
  sort_order : String
  activity_filter : String
deriving DecidableEq, Repr

/-- Core of clients.py list_clients after parameter parsing: compose the
query, count it, and slice the requested page. A negative offset reaches the
store as is and Int.toNat renders the store treating it as zero; the page
size is likewise truncated at zero. -/
def list_clients_core (db : DB) (user : User) (page per_page : Int) (sort af : String) (now : Int) : ClientListResult :=
  let sort_order := validateSort sort
  let q := clientQuery db user sort_order af now
  { clients := ((q.drop (listOffset page per_page).toNat).take per_page.toNat)
    total := q.length
    page := page
    per_page := per_page
    sort_order := sort_order
    activity_filter := af }

/-- clients.py list_clients (GET /api/clients/): parse page/per_page (default
1 and 20 when absent, ValueError when non-numeric), read sort and
activity_filter, then run the core query. -/
def list_clients (db : DB) (user : User) (args : List (String × String)) (now : Int) : Except String ClientListResult :=
  match parseIntArg args "page" 1 with
  | .error e => .error e
  | .ok page =>
    match parseIntArg args "per_page" 20 with
    | .error e => .error e
    | .ok per_page =>
      let sort := (args.lookup "sort").getD "newest"
      let af := (args.lookup "activity_filter").getD "all"
      .ok (list_clients_core db user page per_page sort af now)

/-- leads.py list_leads (GET /api/leads/): the default lead list is the bare
visibility filter — no activity filter, no sort keyword, no pagination. -/
def list_leads (db : DB) (user : User) : List Lead :=
  db.leads.filter (leadListVisible user)

/-- Per-client interaction statistics decorating a page of list results
(clients.py lines 96-114): for a non-empty id set, group the interactions of
those clients by client id into a count and a most recent date; an empty id
set is not queried at all. -/
def stats_for_clients (ints : List Interaction) (client_ids : List Nat) : List (Nat × Nat × Option Int) :=
  if client_ids.isEmpty then []
  else
    (client_ids.dedup.filter fun cid =>
        ints.any fun i => i.client_id == some cid).map fun cid =>
      (cid, (ints.filter fun i => i.client_id == some cid).length,
        lastInteractionDate ints cid)

/-- The "viewed" audit record appended by every successful get-by-id. -/
def viewedLog (u : User) (etype : String) (eid : Nat) (desc : String) : ActivityLog :=
  { tenant_id := u.tenant_id, user_id := u.id, action := "viewed",
    entity_type := etype, entity_id := eid, description := desc }

/-- Row filter of clients.py get_client (lines 202-214): id, tenant and
soft-delete always; the ownership clause (creator or assignee) only when the
caller is not an admin. -/
def getClientPred (u : User) (client_id : Nat) (c : Client) : Bool :=
  let base := c.id == client_id && c.tenant_id == u.tenant_id && c.deleted_at == none
  if isAdmin u then base
  else base && (c.created_by == u.id || c.assigned_to == some u.id)

/-- clients.py get_client (GET /api/clients/id): fetch under getClientPred,
404 when nothing matches, otherwise append the viewed ActivityLog and return
the client. -/
def get_client (db : DB) (user : User) (client_id : Nat) : Except ApiError (Client × DB) :=
  match db.clients.find? (getClientPred user client_id) with
  | none => .error .notFound
  | some c =>
    .ok (c, { db with activity_logs :=
      db.activity_logs ++ [viewedLog user "client" c.id "Viewed client"] })

/-- Row filter of leads.py get_lead (lines 109-121), same shape as getClientPred. -/
def getLeadPred (u : User) (lead_id : Nat) (l : Lead) : Bool :=
  let base := l.id == lead_id && l.tenant_id == u.tenant_id && l.deleted_at == none
  if isAdmin u then base
  else base && (l.created_by == u.id || l.assigned_to == some u.id)

/-- leads.py get_lead (GET /api/leads/id). -/
def get_lead (db : DB) (user : User) (lead_id : Nat) : Except ApiError (Lead × DB) :=
  match db.leads.find? (getLeadPred user lead_id) with
  | none => .error .notFound
  | some l =>
    .ok (l, { db with activity_logs :=
      db.activity_logs ++ [viewedLog user "lead" l.id "Viewed lead"] })

/-- Python truthiness of the assigned_to JSON value: None and 0 are falsy. -/
def pyTruthyId : Option Nat → Bool
  | none => false
  | some n => n != 0

/-- Target row filter of the assignment routes: id, tenant, not soft-deleted
(no ownership clause — the routes are admin-gated). -/
def assignClientPred (u : User) (client_id : Nat) (c : Client) : Bool :=
  c.id == client_id && c.tenant_id == u.tenant_id && c.deleted_at == none

/-- Lead variant of assignClientPred. -/
def assignLeadPred (u : User) (lead_id : Nat) (l : Lead) : Bool :=
  l.id == lead_id && l.tenant_id == u.tenant_id && l.deleted_at == none

/-- Assignee validation of both assignment routes: the named user must exist,
share the caller's tenant, and be active. -/
def validAssignee (users : List User) (u : User) (assigned_to : Option Nat) : Option User :=
  users.find? fun us => some us.id == assigned_to && us.tenant_id == u.tenant_id && us.is_active

/-- Modelled from the spec: send_assignment_notification (app/utils/email_utils)
is not in src; spec section 6 gives the collaborator the interface
notify_assignment(...) returning success or failure, with failures swallowed
(never raised to the route). Its outcome is therefore passed in as the Bool
argument notify_ok, which the routes receive and discard. -/
def notifyAssignment (notify_ok : Bool) : Bool := notify_ok

/-- clients.py assign_client (PUT /api/clients/id/assign): 400 when
assigned_to is missing (falsy), 404 when the target client does not match
assignClientPred, 400 when the assignee is invalid; otherwise set
assigned_to / updated_by / updated_at on the fetched row, attempt the
notification (outcome ignored), and commit. -/
def assign_client (db : DB) (user : User) (client_id : Nat) (assigned_to : Option Nat)
    (now : Int) (notify_ok : Bool) : Except ApiError (String × DB) :=
  if !pyTruthyId assigned_to then .error .badRequest
  else
    match db.clients.find? (assignClientPred user client_id) with
    | none => .error .notFound
    | some _c =>
      match validAssignee db.users user assigned_to with
      | none => .error .badRequest
      | some _au =>
        let _ := notifyAssignment notify_ok
        .ok ("Client assigned successfully",
          { db with
            clients := replaceFirst (assignClientPred user client_id)
              (fun c => { c with assigned_to := assigned_to,
                                 updated_by := some user.id,
                                 updated_at := some now }) db.clients })

/-- leads.py assign_lead (PUT /api/leads/id/assign): 404 when the target lead
does not match assignLeadPred; when assigned_to is truthy the assignee is
validated (400 on failure), a falsy assigned_to skips validation and is
stored as given (explicit clearing); the notification attempt is wrapped in
try/except so its outcome is ignored either way. -/
def assign_lead (db : DB) (user : User) (lead_id : Nat) (assigned_to : Option Nat)
    (now : Int) (notify_ok : Bool) : Except ApiError (String × DB) :=
  match db.leads.find? (assignLeadPred user lead_id) with
  | none => .error .notFound
  | some _l =>
    if pyTruthyId assigned_to && (validAssignee db.users user assigned_to).isNone then
      .error .badRequest
    else
      let _ := notifyAssignment notify_ok
      .ok ("Lead assigned successfully",
        { db with
          leads := replaceFirst (assignLeadPred user lead_id)
            (fun l => { l with assigned_to := assigned_to,
                               updated_by := some user.id,
                               updated_at := some now }) db.leads })

/-- Python expression (data[field] or None): an empty string is coerced to None. -/
def pyOrNone (v : Option String) : Option String :=
  match v with
  | some s => if s == "" then none else some s
  | none => none

/-- JSON body of leads.py update_lead: the outer Option is key presence, the
inner Option is a JSON null. -/
structure LeadUpdate where
  name : Option (Option String) := none
  contact_person : Option (Option String) := none
  contact_title : Option (Option String) := none
  email : Option (Option String) := none
  phone : Option (Option String) := none
  phone_label : Option (Option String) := none
  secondary_phone : Option (Option String) := none
  secondary_phone_label : Option (Option String) := none
  address : Option (Option String) := none
  city : Option (Option String) := none
  state : Option (Option String) := none
  zip : Option (Option String) := none
  notes : Option (Option String) := none
  lead_status : Option (Option String) := none
deriving DecidableEq, Repr

/-- The field list walked by update_lead's for-loop (lines 185-189), each
field paired with its setter. -/
def leadFieldSetters (d : LeadUpdate) : List (Option (Option String) × (Lead → Option String → Lead)) :=
  [(d.name, fun l v => { l with name := v }),
   (d.contact_person, fun l v => { l with contact_person := v }),
   (d.contact_title, fun l v => { l with contact_title := v }),
   (d.email, fun l v => { l with email := v }),
   (d.phone, fun l v => { l with phone := v }),
   (d.phone_label, fun l v => { l with phone_label := v }),
   (d.secondary_phone, fun l v => { l with secondary_phone := v }),
   (d.secondary_phone_label, fun l v => { l with secondary_phone_label := v }),
   (d.address, fun l v => { l with address := v }),
   (d.city, fun l v => { l with city := v }),
   (d.state, fun l v => { l with state := v }),
   (d.zip, fun l v => { l with zip := v }),
   (d.notes, fun l v => { l with notes := v })]

/-- Field loop of update_lead (lines 185-191): for each present key, set the
column to (data[field] or None). -/
def applyLeadTextFields (l : Lead) (d : LeadUpdate) : Lead :=
  (leadFieldSetters d).foldl
    (fun l pf => match pf.1 with | some v => pf.2 l (pyOrNone v) | none => l) l

/-- Status block of update_lead (lines 193-199): a present, valid lead_status
is stored; converted_on is stamped with now only on a transition into
converted from a non-converted state. -/
def applyLeadStatus (l : Lead) (d : LeadUpdate) (now : Int) : Lead :=
  match d.lead_status with
  | some (some s) =>
    if s ∈ ["open", "converted", "closed", "lost"] then
      let l := if s == "converted" && l.lead_status != "converted"
               then { l with converted_on := some now } else l
      { l with lead_status := s }
    else l
  | _ => l

/-- Row filter of update_lead (lines 172-180): id, tenant, creator-or-assignee,
not soft-deleted. -/
def updateLeadPred (u : User) (lead_id : Nat) (l : Lead) : Bool :=
  l.id == lead_id && l.tenant_id == u.tenant_id &&
    (l.created_by == u.id || l.assigned_to == some u.id) && l.deleted_at == none

/-- The row produced by update_lead from the fetched lead: field loop, status
block, then updated_by / updated_at stamping (lines 185-202). -/
def leadAfterUpdate (user : User) (l : Lead) (data : LeadUpdate) (now : Int) : Lead :=
  let l' := applyLeadStatus (applyLeadTextFields l data) data now
  { l' with updated_by := some user.id, updated_at := some now }

/-- leads.py update_lead (PUT /api/leads/id). -/
def update_lead (db : DB) (user : User) (lead_id : Nat) (data : LeadUpdate) (now : Int) :
    Except ApiError (Nat × DB) :=
  match db.leads.find? (updateLeadPred user lead_id) with
  | none => .error .notFound
  | some l =>
    let l' := leadAfterUpdate user l data now
    .ok (l'.id, { db with
      leads := replaceFirst (updateLeadPred user lead_id) (fun _ => l') db.leads })

/-- Modelled from the spec: app/constants.py is not in src; spec section 3
only requires project_status to come from a fixed enumerated option set, so a
representative closed list stands in for PROJECT_STATUS_OPTIONS. -/
def PROJECT_STATUS_OPTIONS : List String :=
  ["pending", "won", "lost", "completed"]

/-- Row filter of the id-based Project routes (projects.py get_project lines
66-72, update_project lines 159-162, delete_project lines 204-207): id and
tenant only — no soft-delete column, no ownership clause. -/
def projectPred (u : User) (project_id : Nat) (p : Project) : Bool :=
  p.id == project_id && p.tenant_id == u.tenant_id

/-- projects.py get_project (GET /api/projects/id): tenant-wide fetch plus
the viewed ActivityLog. -/
def get_project (db : DB) (user : User) (project_id : Nat) : Except ApiError (Project × DB) :=
  match db.projects.find? (projectPred user project_id) with
  | none => .error .notFound
  | some p =>
    .ok (p, { db with activity_logs :=
      db.activity_logs ++ [viewedLog user "project" p.id "Viewed project"] })

/-- JSON body of projects.py update_project; values are stored as given
(no or-None coercion in this route). -/
structure ProjectUpdate where
  project_name : Option (Option String) := none
  type : Option (Option String) := none
  project_description : Option (Option String) := none
  project_worth : Option (Option Int) := none
  client_id : Option (Option Nat) := none
  lead_id : Option (Option Nat) := none
  notes : Option (Option String) := none
  project_status : Option (Option String) := none
  project_start : Option (Option Int) := none
  project_end : Option (Option Int) := none
deriving DecidableEq, Repr

/-- Field application of update_project (lines 167-181): plain setattr for the
listed fields, option-set validation for project_status, date parsing for
project_start/project_end (dates arrive here already parsed). -/
def applyProjectFields (p : Project) (d : ProjectUpdate) : Project :=
  let p := match d.project_name with | some v => { p with project_name := v } | none => p
  let p := match d.type with | some v => { p with type := v } | none => p
  let p := match d.project_description with | some v => { p with project_description := v } | none => p
  let p := match d.project_worth with | some v => { p with project_worth := v } | none => p
  let p := match d.client_id with | some v => { p with client_id := v } | none => p
  let p := match d.lead_id with | some v => { p with lead_id := v } | none => p
  let p := match d.notes with | some v => { p with notes := v } | none => p
  let p := match d.project_status with
    | some (some s) => if s ∈ PROJECT_STATUS_OPTIONS then { p with project_status := s } else p
    | _ => p
  let p := match d.project_start with | some v => { p with project_start := v } | none => p
  match d.project_end with | some v => { p with project_end := v } | none => p

/-- projects.py update_project (PUT /api/projects/id): tenant-only row filter,
then field application and commit. -/
def update_project (db : DB) (user : User) (project_id : Nat) (data : ProjectUpdate) :
    Except ApiError (Nat × DB) :=
  match db.projects.find? (projectPred user project_id) with
  | none => .error .notFound
  | some p =>
    let p' := applyProjectFields p data
    .ok (p'.id, { db with
      projects := replaceFirst (projectPred user project_id) (fun _ => p') db.projects })

/-- projects.py delete_project (DELETE /api/projects/id): tenant-only row
filter, then hard delete of the fetched row. -/
def delete_project (db : DB) (user : User) (project_id : Nat) : Except ApiError (String × DB) :=
  match db.projects.find? (projectPred user project_id) with
  | none => .error .notFound
  | some _p =>
    .ok ("Project deleted",
      { db with projects := removeFirst (projectPred user project_id) db.projects })

/-! Concrete fixture data used to exercise the routes at specific inputs,
shaped after backend/seed_test_data.py (one tenant-1 admin, two tenant-1
members, one foreign-tenant user, one inactive user). -/

/-- Fixture: tenant-1 admin. -/
def uAdmin : User :=
  { id := 1, tenant_id := 1, email := "admin@demo.com", is_active := true, roles := ["admin"] }

/-- Fixture: tenant-1 regular member. -/
def uAlice : User :=
  { id := 2, tenant_id := 1, email := "alice@demo.com", is_active := true, roles := ["user"] }

/-- Fixture: second tenant-1 regular member. -/
def uBob : User :=
  { id := 3, tenant_id := 1, email := "bob@demo.com", is_active := true, roles := ["user"] }

/-- Fixture: user of another tenant. -/
def uEve : User :=
  { id := 4, tenant_id := 2, email := "eve@other.com", is_active := true, roles := ["user"] }

/-- Fixture: deactivated tenant-1 user. -/
def uInactive : User :=
  { id := 5, tenant_id := 1, email := "inactive@demo.com", is_active := false, roles := ["user"] }

/-- Fixture: live unassigned client created by uAlice. -/
def cAcme : Client :=
  { id := 10, tenant_id := 1, name := some "Acme", created_by := 2, created_at := 100 }

/-- Fixture: soft-deleted client. -/
def cGone : Client :=
  { id := 11, tenant_id := 1, name := some "Gone", created_by := 2, created_at := 50,
    deleted_at := some 70, deleted_by := some 2 }

/-- Fixture: live unassigned lead created by uAlice. -/
def lNorth : Lead :=
  { id := 20, tenant_id := 1, name := some "North", created_by := 2, created_at := 100 }

/-- Fixture: soft-deleted lead. -/
def lGone : Lead :=
  { id := 21, tenant_id := 1, name := some "South", created_by := 2, created_at := 60,
    deleted_at := some 80, deleted_by := some 2 }

/-- Fixture: project created by uAlice. -/
def pAlpha : Project :=
  { id := 30, tenant_id := 1, project_name := some "Alpha", created_by := 2, created_at := 100 }

/-- Fixture: an update request that only sets lead_status to converted. -/
def convertUpdate : LeadUpdate :=
  { lead_status := some (some "converted") }

/-- Fixture store. -/
def exDB : DB :=
  { users := [uAdmin, uAlice, uBob, uEve, uInactive],
    clients := [cAcme, cGone],
    leads := [lNorth, lGone],
    interactions := [],
    projects := [pAlpha],
    activity_logs := [] }

/-! Helper lemmas about the store combinators. -/

/-- The row fetched by find? is present, transformed, in replaceFirst's result. -/
theorem replaceFirst_mem_of_find? {α : Type} (p : α → Bool) (f : α → α) :
    ∀ {xs : List α} {x : α}, xs.find? p = some x → f x ∈ replaceFirst p f xs := by
  intro xs
  induction xs with
  | nil => intro x h; simp [List.find?] at h
  | cons a as ih =>
    intro x h
    cases hpa : p a with
    | true =>
      rw [List.find?_cons_of_pos as hpa] at h
      cases h
      simp [replaceFirst, hpa]
    | false =>
      rw [List.find?_cons_of_neg as (by simp [hpa])] at h
      simp [replaceFirst, hpa]
      exact Or.inr (ih h)

/-- Rows not matching the filter survive replaceFirst untouched. -/
theorem replaceFirst_mem_of_not {α : Type} (p : α → Bool) (f : α → α) :
    ∀ {xs : List α} {x : α}, x ∈ xs → p x = false → x ∈ replaceFirst p f xs := by
  intro xs
  induction xs with
  | nil => intro x h _; simp at h
  | cons a as ih =>
    intro x h hpx
    rcases List.mem_cons.mp h with rfl | h
    · simp [replaceFirst, hpx]
    · by_cases hpa : p a = true
      · simp [replaceFirst, hpa, h]
      · simp only [replaceFirst, Bool.not_eq_true] at hpa ⊢
        rw [hpa]
        simp only [Bool.false_eq_true, if_false]
        exact List.mem_cons_of_mem a (ih h hpx)

/-- A fold whose every step preserves a transitive reflexive relation
preserves it overall. -/
theorem foldl_preserves {α β : Type} (P : α → α → Prop)
    (htrans : ∀ a b c, P a b → P b c → P a c) (hrefl : ∀ a, P a a)
    (step : α → β → α) :
    ∀ (bs : List β), (∀ a, ∀ b ∈ bs, P (step a b) a) → ∀ a, P (bs.foldl step a) a := by
  intro bs
  induction bs with
  | nil => intro _ a; exact hrefl a
  | cons b bs ih =>
    intro hstep a
    have h1 : P (step a b) a := hstep a b (List.mem_cons_self b bs)
    have h2 : P ((b :: bs).foldl step a) (step a b) :=
      ih (fun a' b' hb' => hstep a' b' (List.mem_cons_of_mem b hb')) (step a b)
    exact htrans _ _ _ h2 h1

/-- optDescBefore is transitive. -/
theorem optDescBefore_trans (a b c : Option Int) :
    optDescBefore a b = true → optDescBefore b c = true → optDescBefore a c = true := by
  cases a <;> cases b <;> cases c <;> simp [optDescBefore] <;> omega

/-- optDescBefore is total. -/
theorem optDescBefore_total (a b : Option Int) :
    (optDescBefore a b || optDescBefore b a) = true := by
  cases a <;> cases b <;> simp [optDescBefore] <;> omega

/-- An element of a list lies on some page of size k. -/
theorem exists_page_of_mem {α : Type} (k : Nat) (hk : 0 < k) :
    ∀ (xs : List α) (x : α), x ∈ xs → ∃ p : Nat, x ∈ (xs.drop (p * k)).take k := by
  have H : ∀ (n : Nat) (xs : List α) (x : α), xs.length = n → x ∈ xs →
      ∃ p : Nat, x ∈ (xs.drop (p * k)).take k := by
    intro n
    induction n using Nat.strong_induction_on with
    | _ n ih =>
      intro xs x hlen hx
      by_cases hks : x ∈ xs.take k
      · exact ⟨0, by simpa using hks⟩
      · have hx2 : x ∈ xs.take k ++ xs.drop k := by
          rw [List.take_append_drop]; exact hx
        rcases List.mem_append.mp hx2 with h | h
        · exact absurd h hks
        · have hxs : 0 < xs.length := List.length_pos.mpr (List.ne_nil_of_mem hx)
          have hlt : (xs.drop k).length < n := by
            rw [List.length_drop]; omega
          obtain ⟨p, hp⟩ := ih _ hlt (xs.drop k) x rfl h
          refine ⟨p + 1, ?_⟩
          rw [List.drop_drop] at hp
          have he : k + p * k = (p + 1) * k := by ring
          rw [he] at hp
          exact hp
  exact fun xs x hx => H xs.length xs x rfl hx

/-- Membership in a list is membership on some page of size k. -/
theorem mem_pages_iff {α : Type} (k : Nat) (hk : 0 < k) (xs : List α) (x : α) :
    (∃ p : Nat, x ∈ (xs.drop (p * k)).take k) ↔ x ∈ xs := by
  constructor
  · rintro ⟨p, hp⟩
    exact ((List.take_sublist _ _).trans (List.drop_sublist _ _)).mem hp
  · exact exists_page_of_mem k hk xs x

/-- Page p + 1 of the core client route is the corresponding 20-row slice of
the composed query, for any sort keyword fixed by validateSort. -/
theorem clients_page_slice (db : DB) (u : User) (now : Int) (sort af : String)
    (hs : validateSort sort = sort) (p : Nat) :
    (list_clients_core db u ((p : Int) + 1) 20 sort af now).clients
      = ((clientQuery db u sort af now).drop (p * 20)).take 20 := by
  have hoff : (listOffset ((p : Int) + 1) 20).toNat = p * 20 := by
    unfold listOffset; omega
  simp only [list_clients_core, hs, hoff]
  rfl

/-- A client appears on some page of the core client route exactly when it is
in the composed query. -/
theorem mem_clients_pages (db : DB) (u : User) (now : Int) (c : Client) (sort af : String)
    (hs : validateSort sort = sort) :
    (∃ p : Nat, c ∈ (list_clients_core db u ((p : Int) + 1) 20 sort af now).clients) ↔
      c ∈ clientQuery db u sort af now := by
  have h1 : (∃ p : Nat, c ∈ (list_clients_core db u ((p : Int) + 1) 20 sort af now).clients) ↔
      ∃ p : Nat, c ∈ ((clientQuery db u sort af now).drop (p * 20)).take 20 :=
    exists_congr fun p => by rw [clients_page_slice db u now sort af hs p]
  rw [h1, mem_pages_iff 20 (by omega)]

/-- Under the default parameters the composed query is a permutation of the
visibility filter, so membership reduces to the row filter. -/
theorem mem_clientQuery_newest_all (db : DB) (u : User) (now : Int) (c : Client) :
    c ∈ clientQuery db u "newest" "all" now ↔
      c ∈ db.clients ∧ clientListVisible u c = true := by
  unfold clientQuery
  rw [show applyClientActivityFilter db.interactions "all" now
        (db.clients.filter (clientListVisible u)) = db.clients.filter (clientListVisible u)
      from rfl]
  rw [show applyClientSort db.interactions "newest" (db.clients.filter (clientListVisible u))
        = (db.clients.filter (clientListVisible u)).mergeSort
            (fun a b => decide (b.created_at ≤ a.created_at)) from rfl]
  rw [List.mem_mergeSort, List.mem_filter]

/-- C1: for every user U and every Client or Lead E in U's tenant, E appears
in U's default list result (some page of the client list with default
parameters, respectively the lead list) if and only if E is not soft-deleted
and E is assigned to U, or unassigned and created by U; in particular once E
is assigned to another user its creator no longer sees it in the default list. -/
theorem c1_default_list_ownership (db : DB) (u : User) (now : Int) (c : Client) (l : Lead)
    (hc : c ∈ db.clients) (hct : c.tenant_id = u.tenant_id)
    (hl : l ∈ db.leads) (hlt : l.tenant_id = u.tenant_id) :
    ((∃ p : Nat, c ∈ (list_clients_core db u ((p : Int) + 1) 20 "newest" "all" now).clients) ↔
      (c.deleted_at = none ∧
        (c.assigned_to = some u.id ∨ (c.assigned_to = none ∧ c.created_by = u.id))))
    ∧ ((l ∈ list_leads db u) ↔
      (l.deleted_at = none ∧
        (l.assigned_to = some u.id ∨ (l.assigned_to = none ∧ l.created_by = u.id))))
    ∧ (∀ v : Nat, c.assigned_to = some v → v ≠ u.id →
        ¬ ∃ p : Nat, c ∈ (list_clients_core db u ((p : Int) + 1) 20 "newest" "all" now).clients) := by
  have hmain : (∃ p : Nat, c ∈ (list_clients_core db u ((p : Int) + 1) 20 "newest" "all" now).clients) ↔
      (c.deleted_at = none ∧
        (c.assigned_to = some u.id ∨ (c.assigned_to = none ∧ c.created_by = u.id))) := by
    rw [mem_clients_pages db u now c "newest" "all" rfl,
        mem_clientQuery_newest_all db u now c]
    simp [clientListVisible, hc, hct]
  refine ⟨hmain, ?_, ?_⟩
  · rw [show list_leads db u = db.leads.filter (leadListVisible u) from rfl, List.mem_filter]
    simp [leadListVisible, hl, hlt]
  · intro v hv hne hmem
    rcases (hmain.mp hmem).2 with h | h
    · rw [hv] at h; exact hne (Option.some_inj.mp h)
    · rw [hv] at h; cases h.1

/-- Witness for C1 at the fixture store: uAlice sees her unassigned client on
some default-list page. -/
theorem c1_default_list_ownership_witness :
    cAcme ∈ exDB.clients ∧
    (∃ p : Nat, cAcme ∈ (list_clients_core exDB uAlice ((p : Int) + 1) 20 "newest" "all" 0).clients) :=
  ⟨by decide,
    ((c1_default_list_ownership exDB uAlice 0 cAcme lNorth (by decide) (by decide)
      (by decide) (by decide)).1).mpr (by decide)⟩

/-- The single-client fetch predicate, spelled as propositions. -/
theorem getClientPred_iff (u : User) (cid : Nat) (c : Client) :
    getClientPred u cid c = true ↔
      (c.id = cid ∧ c.tenant_id = u.tenant_id ∧ c.deleted_at = none ∧
        (isAdmin u = true ∨ (c.created_by = u.id ∨ c.assigned_to = some u.id))) := by
  by_cases hadm : isAdmin u
  · simp [getClientPred, hadm]
    tauto
  · simp only [Bool.not_eq_true] at hadm
    simp [getClientPred, hadm]
    tauto

/-- The single-lead fetch predicate, spelled as propositions. -/
theorem getLeadPred_iff (u : User) (lid : Nat) (l : Lead) :
    getLeadPred u lid l = true ↔
      (l.id = lid ∧ l.tenant_id = u.tenant_id ∧ l.deleted_at = none ∧
        (isAdmin u = true ∨ (l.created_by = u.id ∨ l.assigned_to = some u.id))) := by
  by_cases hadm : isAdmin u
  · simp [getLeadPred, hadm]
    tauto
  · simp only [Bool.not_eq_true] at hadm
    simp [getLeadPred, hadm]
    tauto

/-- get_client succeeds exactly when some stored client matches its predicate. -/
theorem get_client_ok_iff (db : DB) (u : User) (cid : Nat) :
    (∃ r, get_client db u cid = .ok r) ↔
      ∃ c ∈ db.clients, getClientPred u cid c = true := by
  cases hfind : db.clients.find? (getClientPred u cid) with
  | none =>
    simp only [get_client, hfind]
    constructor
    · rintro ⟨r, hr⟩; cases hr
    · rintro ⟨c, hcmem, hcp⟩
      exact absurd hcp (by simpa using List.find?_eq_none.mp hfind c hcmem)
  | some c =>
    simp only [get_client, hfind]
    constructor
    · intro _; exact ⟨c, List.mem_of_find?_eq_some hfind, List.find?_some hfind⟩
    · intro _; exact ⟨_, rfl⟩

/-- A client returned by get_client satisfies the fetch predicate. -/
theorem get_client_ok_pred (db : DB) (u : User) (cid : Nat) (c : Client) (db' : DB) :
    get_client db u cid = .ok (c, db') → getClientPred u cid c = true := by
  cases hfind : db.clients.find? (getClientPred u cid) with
  | none => simp [get_client, hfind]
  | some c0 =>
    simp only [get_client, hfind, Except.ok.injEq, Prod.mk.injEq]
    rintro ⟨rfl, _⟩
    exact List.find?_some hfind

/-- When get_client does not succeed, it fails as not-found. -/
theorem get_client_notFound (db : DB) (u : User) (cid : Nat) :
    (¬ ∃ r, get_client db u cid = .ok r) → get_client db u cid = .error ApiError.notFound := by
  intro hno
  cases hfind : db.clients.find? (getClientPred u cid) with
  | none => simp [get_client, hfind]
  | some c =>
    refine absurd ⟨(c, { db with activity_logs :=
      db.activity_logs ++ [viewedLog u "client" c.id "Viewed client"] }), ?_⟩ hno
    simp [get_client, hfind]

/-- get_lead succeeds exactly when some stored lead matches its predicate. -/
theorem get_lead_ok_iff (db : DB) (u : User) (lid : Nat) :
    (∃ r, get_lead db u lid = .ok r) ↔
      ∃ l ∈ db.leads, getLeadPred u lid l = true := by
  cases hfind : db.leads.find? (getLeadPred u lid) with
  | none =>
    simp only [get_lead, hfind]
    constructor
    · rintro ⟨r, hr⟩; cases hr
    · rintro ⟨l, hlmem, hlp⟩
      exact absurd hlp (by simpa using List.find?_eq_none.mp hfind l hlmem)
  | some l =>
    simp only [get_lead, hfind]
    constructor
    · intro _; exact ⟨l, List.mem_of_find?_eq_some hfind, List.find?_some hfind⟩
    · intro _; exact ⟨_, rfl⟩

/-- A lead returned by get_lead satisfies the fetch predicate. -/
theorem get_lead_ok_pred (db : DB) (u : User) (lid : Nat) (l : Lead) (db' : DB) :
    get_lead db u lid = .ok (l, db') → getLeadPred u lid l = true := by
  cases hfind : db.leads.find? (getLeadPred u lid) with
  | none => simp [get_lead, hfind]
  | some l0 =>
    simp only [get_lead, hfind, Except.ok.injEq, Prod.mk.injEq]
    rintro ⟨rfl, _⟩
    exact List.find?_some hfind

/-- When get_lead does not succeed, it fails as not-found. -/
theorem get_lead_notFound (db : DB) (u : User) (lid : Nat) :
    (¬ ∃ r, get_lead db u lid = .ok r) → get_lead db u lid = .error ApiError.notFound := by
  intro hno
  cases hfind : db.leads.find? (getLeadPred u lid) with
  | none => simp [get_lead, hfind]
  | some l =>
    refine absurd ⟨(l, { db with activity_logs :=
      db.activity_logs ++ [viewedLog u "lead" l.id "Viewed lead"] }), ?_⟩ hno
    simp [get_lead, hfind]

/-- C2: a single-entity get of a Client or Lead succeeds exactly for an
in-tenant, non-deleted entity whose caller is admin, creator or assignee (a
creator keeps get-access after reassignment; an admin is unrestricted within
the tenant); any returned entity satisfies those conditions; and a get that
does not succeed fails as not-found (404). -/
theorem c2_get_by_id_access (db : DB) (u : User) (cid lid : Nat) :
    ((∃ r, get_client db u cid = .ok r) ↔
      ∃ c ∈ db.clients, (c.id = cid ∧ c.tenant_id = u.tenant_id ∧ c.deleted_at = none ∧
        (isAdmin u = true ∨ (c.created_by = u.id ∨ c.assigned_to = some u.id))))
    ∧ (∀ c db', get_client db u cid = .ok (c, db') →
        (c.id = cid ∧ c.tenant_id = u.tenant_id ∧ c.deleted_at = none ∧
          (isAdmin u = true ∨ (c.created_by = u.id ∨ c.assigned_to = some u.id))))
    ∧ ((¬ ∃ r, get_client db u cid = .ok r) →
        get_client db u cid = .error ApiError.notFound ∧ ApiError.notFound.status = 404)
    ∧ ((∃ r, get_lead db u lid = .ok r) ↔
      ∃ l ∈ db.leads, (l.id = lid ∧ l.tenant_id = u.tenant_id ∧ l.deleted_at = none ∧
        (isAdmin u = true ∨ (l.created_by = u.id ∨ l.assigned_to = some u.id))))
    ∧ (∀ l db', get_lead db u lid = .ok (l, db') →
        (l.id = lid ∧ l.tenant_id = u.tenant_id ∧ l.deleted_at = none ∧
          (isAdmin u = true ∨ (l.created_by = u.id ∨ l.assigned_to = some u.id))))
    ∧ ((¬ ∃ r, get_lead db u lid = .ok r) →
        get_lead db u lid = .error ApiError.notFound ∧ ApiError.notFound.status = 404) := by
  refine ⟨?_, ?_, ?_, ?_, ?_, ?_⟩
  · rw [get_client_ok_iff]
    exact exists_congr fun c => and_congr_right fun _ => getClientPred_iff u cid c
  · intro c db' h
    exact (getClientPred_iff u cid c).mp (get_client_ok_pred db u cid c db' h)
  · intro hno
    exact ⟨get_client_notFound db u cid hno, rfl⟩
  · rw [get_lead_ok_iff]
    exact exists_congr fun l => and_congr_right fun _ => getLeadPred_iff u lid l
  · intro l db' h
    exact (getLeadPred_iff u lid l).mp (get_lead_ok_pred db u lid l db' h)
  · intro hno
    exact ⟨get_lead_notFound db u lid hno, rfl⟩

/-- Witness for C2 at the fixture store: uAlice, the creator, can fetch her
client by id. -/
theorem c2_get_by_id_access_witness :
    (∃ r, get_client exDB uAlice 10 = .ok r) :=
  ((c2_get_by_id_access exDB uAlice 10 20).1).mpr ⟨cAcme, by decide, by decide⟩

/-- C10: every tenant member, admin or not, can get, update and hard-delete
any Project of their tenant by id — the id-based Project routes filter by
tenant only, with no ownership or assignment clause. -/
theorem c10_project_tenant_wide_access (db : DB) (u : User) (p : Project) (d : ProjectUpdate)
    (hp : p ∈ db.projects) (ht : p.tenant_id = u.tenant_id) :
    (∃ r, get_project db u p.id = .ok r)
    ∧ (∃ r, update_project db u p.id d = .ok r)
    ∧ (∃ r, delete_project db u p.id = .ok r) := by
  have hsome : (db.projects.find? (projectPred u p.id)).isSome = true :=
    List.find?_isSome.mpr ⟨p, hp, by simp [projectPred, ht]⟩
  obtain ⟨q, hq⟩ := Option.isSome_iff_exists.mp hsome
  refine ⟨?_, ?_, ?_⟩
  · simp only [get_project, hq]
    exact ⟨_, rfl⟩
  · simp only [update_project, hq]
    exact ⟨_, rfl⟩
  · simp only [delete_project, hq]
    exact ⟨_, rfl⟩

/-- Witness for C10 at the fixture store: uBob, a non-admin who did not create
the project, can get, update and delete it. -/
theorem c10_project_tenant_wide_access_witness :
    (∃ r, get_project exDB uBob 30 = .ok r)
    ∧ (∃ r, update_project exDB uBob 30 {} = .ok r)
    ∧ (∃ r, delete_project exDB uBob 30 = .ok r) := by
  have h := c10_project_tenant_wide_access exDB uBob pAlpha {} (by decide) (by decide)
  simpa using h

/-- hasRecentClientInteraction, spelled as a proposition. -/
theorem hasRecentClientInteraction_iff (ints : List Interaction) (cid : Nat) (cutoff : Int) :
    hasRecentClientInteraction ints cid cutoff = true ↔
      ∃ i ∈ ints, i.client_id = some cid ∧ cutoff ≤ i.contact_date := by
  simp [hasRecentClientInteraction, List.any_eq_true]

/-- Membership survives every branch of applyClientSort. -/
theorem mem_applyClientSort (ints : List Interaction) (s : String) (q : List Client) (c : Client) :
    c ∈ applyClientSort ints s q ↔ c ∈ q := by
  unfold applyClientSort
  split_ifs <;> simp [List.mem_mergeSort]

/-- The composed query with the inactive filter, spelled as propositions. -/
theorem mem_clientQuery_inactive (db : DB) (u : User) (now : Int) (c : Client) :
    c ∈ clientQuery db u "newest" "inactive" now ↔
      (c ∈ db.clients ∧ clientListVisible u c = true ∧
        ¬ ∃ i ∈ db.interactions, i.client_id = some c.id ∧
            now - 90 * secondsPerDay ≤ i.contact_date) := by
  unfold clientQuery
  rw [mem_applyClientSort,
      show applyClientActivityFilter db.interactions "inactive" now
          (db.clients.filter (clientListVisible u))
        = (db.clients.filter (clientListVisible u)).filter
            (fun c => !hasRecentClientInteraction db.interactions c.id
              (now - 90 * secondsPerDay)) from rfl,
      List.mem_filter, List.mem_filter]
  rw [show (!hasRecentClientInteraction db.interactions c.id (now - 90 * secondsPerDay)) = true
        ↔ ¬(hasRecentClientInteraction db.interactions c.id (now - 90 * secondsPerDay) = true)
      from by simp]
  rw [hasRecentClientInteraction_iff]
  tauto

/-- The composed query with the active filter, spelled as propositions. -/
theorem mem_clientQuery_active (db : DB) (u : User) (now : Int) (c : Client) :
    c ∈ clientQuery db u "newest" "active" now ↔
      (c ∈ db.clients ∧ clientListVisible u c = true ∧
        ∃ i ∈ db.interactions, i.client_id = some c.id ∧
          now - 30 * secondsPerDay ≤ i.contact_date) := by
  unfold clientQuery
  rw [mem_applyClientSort,
      show applyClientActivityFilter db.interactions "active" now
          (db.clients.filter (clientListVisible u))
        = (db.clients.filter (clientListVisible u)).filter
            (fun c => hasRecentClientInteraction db.interactions c.id
              (now - 30 * secondsPerDay)) from rfl,
      List.mem_filter, List.mem_filter, hasRecentClientInteraction_iff]
  tauto

/-- C4: with activity_filter=inactive the client list returns exactly the
visible clients having no Interaction with contact_date within the last 90
days (clients with zero Interactions included); with activity_filter=active
it returns exactly the visible clients having at least one Interaction within
the last 30 days; so every visible zero-interaction client is in the inactive
result and absent from the active result. -/
theorem c4_activity_filter_semantics (db : DB) (u : User) (now : Int) (c : Client)
    (hc : c ∈ db.clients) :
    ((∃ p : Nat, c ∈ (list_clients_core db u ((p : Int) + 1) 20 "newest" "inactive" now).clients) ↔
      (clientListVisible u c = true ∧
        ¬ ∃ i ∈ db.interactions, i.client_id = some c.id ∧
            now - 90 * secondsPerDay ≤ i.contact_date))
    ∧ ((∃ p : Nat, c ∈ (list_clients_core db u ((p : Int) + 1) 20 "newest" "active" now).clients) ↔
      (clientListVisible u c = true ∧
        ∃ i ∈ db.interactions, i.client_id = some c.id ∧
          now - 30 * secondsPerDay ≤ i.contact_date))
    ∧ ((∀ i ∈ db.interactions, i.client_id ≠ some c.id) → clientListVisible u c = true →
        ((∃ p : Nat, c ∈ (list_clients_core db u ((p : Int) + 1) 20 "newest" "inactive" now).clients)
          ∧ ¬ (∃ p : Nat, c ∈ (list_clients_core db u ((p : Int) + 1) 20 "newest" "active" now).clients))) := by
  have hinact : (∃ p : Nat, c ∈ (list_clients_core db u ((p : Int) + 1) 20 "newest" "inactive" now).clients) ↔
      (clientListVisible u c = true ∧
        ¬ ∃ i ∈ db.interactions, i.client_id = some c.id ∧
            now - 90 * secondsPerDay ≤ i.contact_date) := by
    rw [mem_clients_pages db u now c "newest" "inactive" rfl, mem_clientQuery_inactive]
    tauto
  have hact : (∃ p : Nat, c ∈ (list_clients_core db u ((p : Int) + 1) 20 "newest" "active" now).clients) ↔
      (clientListVisible u c = true ∧
        ∃ i ∈ db.interactions, i.client_id = some c.id ∧
          now - 30 * secondsPerDay ≤ i.contact_date) := by
    rw [mem_clients_pages db u now c "newest" "active" rfl, mem_clientQuery_active]
    tauto
  refine ⟨hinact, hact, fun hzero hvis => ⟨?_, ?_⟩⟩
  · exact hinact.mpr ⟨hvis, fun ⟨i, hi, hic, _⟩ => hzero i hi hic⟩
  · intro hmem
    obtain ⟨-, i, hi, hic, -⟩ := hact.mp hmem
    exact hzero i hi hic

/-- Witness for C4 at the fixture store: uAlice's zero-interaction client is
in the inactive result and absent from the active result. -/
theorem c4_activity_filter_semantics_witness :
    (∃ p : Nat, cAcme ∈ (list_clients_core exDB uAlice ((p : Int) + 1) 20 "newest" "inactive" 0).clients)
    ∧ ¬ (∃ p : Nat, cAcme ∈ (list_clients_core exDB uAlice ((p : Int) + 1) 20 "newest" "active" 0).clients) :=
  (c4_activity_filter_semantics exDB uAlice 0 cAcme (by decide)).2.2
    (by intro i hi; simp [exDB] at hi) (by decide)

/-- C5: with sort=activity the composed query is ordered by each client's most
recent Interaction contact_date descending, clients with no Interactions
coming after all clients that have one; no client is excluded by the sort;
and every returned page is ordered the same way. -/
theorem c5_activity_sort_order (db : DB) (u : User) (now : Int) (af : String) :
    List.Pairwise (fun a b =>
        optDescBefore (lastInteractionDate db.interactions a.id)
          (lastInteractionDate db.interactions b.id) = true)
      (clientQuery db u "activity" af now)
    ∧ (∀ c : Client, c ∈ clientQuery db u "activity" af now ↔
        c ∈ applyClientActivityFilter db.interactions af now
          (db.clients.filter (clientListVisible u)))
    ∧ (∀ page pp : Int,
        List.Pairwise (fun a b =>
            optDescBefore (lastInteractionDate db.interactions a.id)
              (lastInteractionDate db.interactions b.id) = true)
          (list_clients_core db u page pp "activity" af now).clients) := by
  have hq : clientQuery db u "activity" af now
      = (applyClientActivityFilter db.interactions af now
          (db.clients.filter (clientListVisible u))).mergeSort
          (fun a b => optDescBefore (lastInteractionDate db.interactions a.id)
            (lastInteractionDate db.interactions b.id)) := rfl
  have hpw : List.Pairwise (fun a b =>
      optDescBefore (lastInteractionDate db.interactions a.id)
        (lastInteractionDate db.interactions b.id) = true)
      (clientQuery db u "activity" af now) := by
    rw [hq]
    exact @List.sorted_mergeSort Client
      (fun a b => optDescBefore (lastInteractionDate db.interactions a.id)
        (lastInteractionDate db.interactions b.id))
      (fun a b c hab hbc => optDescBefore_trans _ _ _ hab hbc)
      (fun a b => optDescBefore_total _ _) _
  refine ⟨hpw, ?_, ?_⟩
  · intro c
    rw [hq, List.mem_mergeSort]
  · intro page pp
    have hslice : (list_clients_core db u page pp "activity" af now).clients
        = ((clientQuery db u "activity" af now).drop (listOffset page pp).toNat).take pp.toNat := by
      simp only [list_clients_core]
      rfl
    rw [hslice]
    exact List.Pairwise.sublist ((List.take_sublist _ _).trans (List.drop_sublist _ _)) hpw

/-- The activity filter only narrows the query. -/
theorem mem_of_mem_applyClientActivityFilter (ints : List Interaction) (af : String)
    (now : Int) (q : List Client) (c : Client) :
    c ∈ applyClientActivityFilter ints af now q → c ∈ q := by
  unfold applyClientActivityFilter
  split_ifs <;> intro h
  · exact (List.mem_filter.mp h).1
  · exact (List.mem_filter.mp h).1
  · exact (List.mem_filter.mp h).1
  · exact h

/-- Every row of the composed client query is non-deleted (and tenant-scoped
and ownership-visible). -/
theorem clientQuery_deleted_none (db : DB) (u : User) (sort af : String) (now : Int) :
    ∀ x ∈ clientQuery db u sort af now, x.deleted_at = none := by
  intro x hx
  unfold clientQuery at hx
  rw [mem_applyClientSort] at hx
  have hx2 := mem_of_mem_applyClientActivityFilter _ _ _ _ _ hx
  have hvis := (List.mem_filter.mp hx2).2
  simp [clientListVisible] at hvis
  exact hvis.1.2

/-- Every row on any page of the core client route is in the composed query. -/
theorem mem_clientQuery_of_mem_core (db : DB) (u : User) (page pp : Int)
    (sort af : String) (now : Int) (x : Client) :
    x ∈ (list_clients_core db u page pp sort af now).clients →
      x ∈ clientQuery db u (validateSort sort) af now := by
  intro h
  simp only [list_clients_core] at h
  exact ((List.take_sublist _ _).trans (List.drop_sublist _ _)).mem h

/-- Every key of the stats decoration comes from the queried id set. -/
theorem stats_for_clients_keys (ints : List Interaction) (ids : List Nat) :
    ∀ e ∈ stats_for_clients ints ids, e.1 ∈ ids := by
  intro e he
  unfold stats_for_clients at he
  by_cases hids : ids.isEmpty
  · simp [hids] at he
  · rw [if_neg hids] at he
    obtain ⟨cid, hcid, rfl⟩ := List.mem_map.mp he
    exact List.mem_dedup.mp (List.mem_of_mem_filter hcid)

/-- A successful client assignment only rewrites the first row matching the
assignment target filter. -/
theorem assign_client_ok_clients (db : DB) (u : User) (cid : Nat) (a : Option Nat)
    (now : Int) (nok : Bool) (msg : String) (db' : DB) :
    assign_client db u cid a now nok = .ok (msg, db') →
      db'.clients = replaceFirst (assignClientPred u cid)
        (fun c => { c with assigned_to := a, updated_by := some u.id,
                           updated_at := some now }) db.clients := by
  unfold assign_client
  split_ifs with ht
  · intro h; cases h
  · cases hfind : db.clients.find? (assignClientPred u cid) with
    | none => intro h; cases h
    | some c0 =>
      cases hva : validAssignee db.users u a with
      | none => intro h; cases h
      | some au =>
        intro h
        cases h
        rfl

/-- A successful lead assignment only rewrites the first row matching the
assignment target filter. -/
theorem assign_lead_ok_leads (db : DB) (u : User) (lid : Nat) (a : Option Nat)
    (now : Int) (nok : Bool) (msg : String) (db' : DB) :
    assign_lead db u lid a now nok = .ok (msg, db') →
      db'.leads = replaceFirst (assignLeadPred u lid)
        (fun l => { l with assigned_to := a, updated_by := some u.id,
                           updated_at := some now }) db.leads := by
  unfold assign_lead
  cases hfind : db.leads.find? (assignLeadPred u lid) with
  | none => intro h; cases h
  | some l0 =>
    split_ifs with ht
    · intro h; cases h
    · intro h
      cases h
      rfl

/-- C3: a soft-deleted Client or Lead never appears in any page of a list, in
the stats decoration input, or in a get result; a get or (well-formed) assign
aimed at it fails as not-found; and a successful assignment never rewrites a
soft-deleted row. -/
theorem c3_soft_deleted_never_visible (db : DB) (u : User) (now : Int)
    (c : Client) (l : Lead) (dc dl : Int)
    (hcdel : c.deleted_at = some dc) (hldel : l.deleted_at = some dl) :
    (∀ page pp : Int, ∀ sort af : String,
      c ∉ (list_clients_core db u page pp sort af now).clients
      ∧ (∀ x ∈ (list_clients_core db u page pp sort af now).clients, x.deleted_at = none)
      ∧ (∀ e ∈ stats_for_clients db.interactions
            (((list_clients_core db u page pp sort af now).clients).map (·.id)),
          e.1 ∈ ((list_clients_core db u page pp sort af now).clients).map (·.id)))
    ∧ l ∉ list_leads db u
    ∧ ((∀ x ∈ db.clients, x.id = c.id → x.deleted_at ≠ none) →
        get_client db u c.id = .error ApiError.notFound
        ∧ (∀ a nok, pyTruthyId a = true →
            assign_client db u c.id a now nok = .error ApiError.notFound))
    ∧ ((∀ x ∈ db.leads, x.id = l.id → x.deleted_at ≠ none) →
        get_lead db u l.id = .error ApiError.notFound
        ∧ (∀ a nok, assign_lead db u l.id a now nok = .error ApiError.notFound))
    ∧ (∀ cid a nok msg db', assign_client db u cid a now nok = .ok (msg, db') →
        c ∈ db.clients → c ∈ db'.clients)
    ∧ (∀ lid a nok msg db', assign_lead db u lid a now nok = .ok (msg, db') →
        l ∈ db.leads → l ∈ db'.leads) := by
  refine ⟨?_, ?_, ?_, ?_, ?_, ?_⟩
  · intro page pp sort af
    refine ⟨?_, ?_, ?_⟩
    · intro hmem
      have := clientQuery_deleted_none db u (validateSort sort) af now c
        (mem_clientQuery_of_mem_core db u page pp sort af now c hmem)
      rw [hcdel] at this
      cases this
    · intro x hx
      exact clientQuery_deleted_none db u (validateSort sort) af now x
        (mem_clientQuery_of_mem_core db u page pp sort af now x hx)
    · exact stats_for_clients_keys _ _
  · intro hmem
    have hvis := (List.mem_filter.mp hmem).2
    simp [leadListVisible, hldel] at hvis
  · intro huniq
    have hfind : db.clients.find? (getClientPred u c.id) = none := by
      rw [List.find?_eq_none]
      intro x hx hpx
      obtain ⟨hid, -, hdel, -⟩ := (getClientPred_iff u c.id x).mp hpx
      exact huniq x hx hid hdel
    have hfind2 : db.clients.find? (assignClientPred u c.id) = none := by
      rw [List.find?_eq_none]
      intro x hx hpx
      simp [assignClientPred] at hpx
      exact huniq x hx hpx.1.1 hpx.2
    refine ⟨by simp [get_client, hfind], fun a nok ha => ?_⟩
    simp [assign_client, ha, hfind2]
  · intro huniq
    have hfind : db.leads.find? (getLeadPred u l.id) = none := by
      rw [List.find?_eq_none]
      intro x hx hpx
      obtain ⟨hid, -, hdel, -⟩ := (getLeadPred_iff u l.id x).mp hpx
      exact huniq x hx hid hdel
    have hfind2 : db.leads.find? (assignLeadPred u l.id) = none := by
      rw [List.find?_eq_none]
      intro x hx hpx
      simp [assignLeadPred] at hpx
      exact huniq x hx hpx.1.1 hpx.2
    exact ⟨by simp [get_lead, hfind], fun a nok => by simp [assign_lead, hfind2]⟩
  · intro cid a nok msg db' hok hcmem
    rw [assign_client_ok_clients db u cid a now nok msg db' hok]
    refine replaceFirst_mem_of_not _ _ hcmem ?_
    simp [assignClientPred, hcdel]
  · intro lid a nok msg db' hok hlmem
    rw [assign_lead_ok_leads db u lid a now nok msg db' hok]
    refine replaceFirst_mem_of_not _ _ hlmem ?_
    simp [assignLeadPred, hldel]

/-- Witness for C3 at the fixture store: the soft-deleted client is absent
from the first default page, and get/assign of it fail as 404. -/
theorem c3_soft_deleted_never_visible_witness :
    cGone ∉ (list_clients_core exDB uAlice 1 20 "newest" "all" 0).clients
    ∧ get_client exDB uAlice 11 = .error ApiError.notFound
    ∧ get_lead exDB uAlice 21 = .error ApiError.notFound := by
  have h := c3_soft_deleted_never_visible exDB uAlice 0 cGone lGone 70 80 (by decide) (by decide)
  exact ⟨(h.1 1 20 "newest" "all").1,
    (h.2.2.1 (by decide)).1,
    (h.2.2.2.1 (by decide)).1⟩

/-- C6 counterexample: the route computes a negative offset for page 0 (no
clamping to 1), and a non-numeric page parameter makes the request fail with
ValueError instead of defaulting to 1. -/
theorem c6_pagination_counterexample :
    listOffset 0 20 = -20 ∧ listOffset 0 20 < 0
    ∧ pyInt "abc" = none
    ∧ list_clients exDB uAlice [("page", "abc")] 0 = .error "ValueError" := by
  refine ⟨by decide, by decide, by decide, ?_⟩
  simp [list_clients, parseIntArg, show pyInt "abc" = none from by decide]

/-- C6 (amended): page and per_page default to 1 and 20 only when the
parameter is absent; the number of items in a client-list page never exceeds
per_page (truncated at zero); and a present non-numeric page parameter fails
the request with ValueError rather than defaulting. -/
theorem c6_pagination_defaults_amended (db : DB) (u : User) (now : Int)
    (args : List (String × String))
    (hpage : args.lookup "page" = none) (hpp : args.lookup "per_page" = none) :
    (∃ r, list_clients db u args now = .ok r ∧ r.page = 1 ∧ r.per_page = 20
        ∧ r.clients.length ≤ 20)
    ∧ (∀ page pp : Int, ∀ sort af : String,
        (list_clients_core db u page pp sort af now).clients.length ≤ pp.toNat)
    ∧ (∀ s, pyInt s = none → list_clients db u [("page", s)] now = .error "ValueError") := by
  refine ⟨?_, ?_, ?_⟩
  · refine ⟨list_clients_core db u 1 20 ((args.lookup "sort").getD "newest")
      ((args.lookup "activity_filter").getD "all") now, ?_, rfl, rfl, ?_⟩
    · simp [list_clients, parseIntArg, hpage, hpp]
    · simp only [list_clients_core]
      exact List.length_take_le _ _
  · intro page pp sort af
    simp only [list_clients_core]
    exact List.length_take_le _ _
  · intro s hs
    simp [list_clients, parseIntArg, hs]

/-- Witness for the amended C6 at the fixture store with no parameters. -/
theorem c6_pagination_defaults_amended_witness :
    ∃ r, list_clients exDB uAlice [] 0 = .ok r ∧ r.page = 1 ∧ r.per_page = 20
      ∧ r.clients.length ≤ 20 :=
  (c6_pagination_defaults_amended exDB uAlice 0 [] rfl rfl).1

/-- C7: assigning a Client or Lead to a valid same-tenant active user
persists assigned_to, updated_by and updated_at regardless of the
notification collaborator's outcome nok — a notification failure neither
propagates nor rolls the mutation back. -/
theorem c7_assignment_survives_notification_failure (db : DB) (u : User)
    (cid lid a : Nat) (now : Int) (c : Client) (l : Lead) (au : User) (nok : Bool)
    (ha : a ≠ 0)
    (hc : db.clients.find? (assignClientPred u cid) = some c)
    (hl : db.leads.find? (assignLeadPred u lid) = some l)
    (hau : validAssignee db.users u (some a) = some au) :
    (∃ db', assign_client db u cid (some a) now nok
        = .ok ("Client assigned successfully", db')
      ∧ { c with assigned_to := some a, updated_by := some u.id,
                 updated_at := some now } ∈ db'.clients)
    ∧ (∃ db', assign_lead db u lid (some a) now nok
        = .ok ("Lead assigned successfully", db')
      ∧ { l with assigned_to := some a, updated_by := some u.id,
                 updated_at := some now } ∈ db'.leads) := by
  have hta : pyTruthyId (some a) = true := by simp [pyTruthyId, ha]
  constructor
  · refine ⟨{ db with
      clients := replaceFirst (assignClientPred u cid)
        (fun x => { x with assigned_to := some a, updated_by := some u.id,
                           updated_at := some now }) db.clients }, ?_, ?_⟩
    · simp [assign_client, hta, hc, hau]
    · exact replaceFirst_mem_of_find? _ _ hc
  · refine ⟨{ db with
      leads := replaceFirst (assignLeadPred u lid)
        (fun x => { x with assigned_to := some a, updated_by := some u.id,
                           updated_at := some now }) db.leads }, ?_, ?_⟩
    · simp [assign_lead, hta, hl, hau]
    · exact replaceFirst_mem_of_find? _ _ hl

/-- Witness for C7 at the fixture store: the admin assigns Alice's client to
Bob while the notification collaborator reports failure, and the mutation is
still persisted. -/
theorem c7_assignment_survives_notification_failure_witness :
    ∃ db', assign_client exDB uAdmin 10 (some 3) 0 false
        = .ok ("Client assigned successfully", db')
      ∧ { cAcme with assigned_to := some 3, updated_by := some uAdmin.id,
                     updated_at := some 0 } ∈ db'.clients :=
  (c7_assignment_survives_notification_failure exDB uAdmin 10 20 3 0 cAcme lNorth uBob false
    (by decide) (by decide) (by decide) (by decide)).1

/-- C8: an assignment request naming an assignee who does not exist, is of
another tenant, or is inactive fails with a validation error (400) and never
produces a mutated store. -/
theorem c8_invalid_assignee_no_mutation (db : DB) (u : User)
    (cid lid a : Nat) (now : Int) (nok : Bool) (c : Client) (l : Lead)
    (ha : a ≠ 0)
    (hc : db.clients.find? (assignClientPred u cid) = some c)
    (hl : db.leads.find? (assignLeadPred u lid) = some l)
    (hbad : ∀ us ∈ db.users, ¬(us.id = a ∧ us.tenant_id = u.tenant_id ∧ us.is_active = true)) :
    assign_client db u cid (some a) now nok = .error ApiError.badRequest
    ∧ assign_lead db u lid (some a) now nok = .error ApiError.badRequest
    ∧ ApiError.badRequest.status = 400
    ∧ (∀ r, assign_client db u cid (some a) now nok ≠ .ok r)
    ∧ (∀ r, assign_lead db u lid (some a) now nok ≠ .ok r) := by
  have hta : pyTruthyId (some a) = true := by simp [pyTruthyId, ha]
  have hva : validAssignee db.users u (some a) = none := by
    rw [validAssignee, List.find?_eq_none]
    intro us hus hp
    simp only [Bool.and_eq_true, beq_iff_eq, Option.some_inj] at hp
    exact hbad us hus ⟨hp.1.1, hp.1.2, hp.2⟩
  have h1 : assign_client db u cid (some a) now nok = .error ApiError.badRequest := by
    simp [assign_client, hta, hc, hva]
  have h2 : assign_lead db u lid (some a) now nok = .error ApiError.badRequest := by
    simp [assign_lead, hta, hl, hva]
  refine ⟨h1, h2, rfl, ?_, ?_⟩
  · intro r hr; rw [h1] at hr; cases hr
  · intro r hr; rw [h2] at hr; cases hr

/-- Witness for C8 at the fixture store: assigning to the foreign-tenant user
uEve (id 4) is rejected with 400 for both entity kinds. -/
theorem c8_invalid_assignee_no_mutation_witness :
    assign_client exDB uAdmin 10 (some 4) 0 true = .error ApiError.badRequest
    ∧ assign_lead exDB uAdmin 20 (some 4) 0 true = .error ApiError.badRequest :=
  ⟨(c8_invalid_assignee_no_mutation exDB uAdmin 10 20 4 0 true cAcme lNorth
      (by decide) (by decide) (by decide) (by decide)).1,
   (c8_invalid_assignee_no_mutation exDB uAdmin 10 20 4 0 true cAcme lNorth
      (by decide) (by decide) (by decide) (by decide)).2.1⟩

/-- The text-field loop of update_lead never touches lead_status, converted_on
or id. -/
theorem applyLeadTextFields_keeps (l : Lead) (d : LeadUpdate) :
    (applyLeadTextFields l d).lead_status = l.lead_status
    ∧ (applyLeadTextFields l d).converted_on = l.converted_on
    ∧ (applyLeadTextFields l d).id = l.id := by
  have hstep : ∀ (a : Lead), ∀ b ∈ leadFieldSetters d,
      ((match b.1 with | some v => b.2 a (pyOrNone v) | none => a) : Lead).lead_status = a.lead_status
      ∧ ((match b.1 with | some v => b.2 a (pyOrNone v) | none => a) : Lead).converted_on = a.converted_on
      ∧ ((match b.1 with | some v => b.2 a (pyOrNone v) | none => a) : Lead).id = a.id := by
    intro a b hb
    fin_cases hb <;> first
      | (cases d.name <;> exact ⟨rfl, rfl, rfl⟩)
      | (cases d.contact_person <;> exact ⟨rfl, rfl, rfl⟩)
      | (cases d.contact_title <;> exact ⟨rfl, rfl, rfl⟩)
      | (cases d.email <;> exact ⟨rfl, rfl, rfl⟩)
      | (cases d.phone <;> exact ⟨rfl, rfl, rfl⟩)
      | (cases d.phone_label <;> exact ⟨rfl, rfl, rfl⟩)
      | (cases d.secondary_phone <;> exact ⟨rfl, rfl, rfl⟩)
      | (cases d.secondary_phone_label <;> exact ⟨rfl, rfl, rfl⟩)
      | (cases d.address <;> exact ⟨rfl, rfl, rfl⟩)
      | (cases d.city <;> exact ⟨rfl, rfl, rfl⟩)
      | (cases d.state <;> exact ⟨rfl, rfl, rfl⟩)
      | (cases d.zip <;> exact ⟨rfl, rfl, rfl⟩)
      | (cases d.notes <;> exact ⟨rfl, rfl, rfl⟩)
  exact foldl_preserves
    (fun a b => a.lead_status = b.lead_status ∧ a.converted_on = b.converted_on ∧ a.id = b.id)
    (by intro a b c h1 h2; exact ⟨h1.1.trans h2.1, h1.2.1.trans h2.2.1, h1.2.2.trans h2.2.2⟩)
    (by intro a; exact ⟨rfl, rfl, rfl⟩)
    (fun l pf => match pf.1 with | some v => pf.2 l (pyOrNone v) | none => l)
    (leadFieldSetters d) hstep l

/-- The status block under a converted request: status becomes converted, id
is kept, converted_on is stamped exactly on a transition from non-converted. -/
theorem applyLeadStatus_converted (t : Lead) (d : LeadUpdate) (now : Int)
    (hds : d.lead_status = some (some "converted")) :
    (applyLeadStatus t d now).lead_status = "converted"
    ∧ (applyLeadStatus t d now).id = t.id
    ∧ (t.lead_status ≠ "converted" → (applyLeadStatus t d now).converted_on = some now)
    ∧ (t.lead_status = "converted" → (applyLeadStatus t d now).converted_on = t.converted_on) := by
  unfold applyLeadStatus
  rw [hds]
  by_cases h : t.lead_status = "converted"
  · simp [h]
  · simp [h]

/-- C9: updating a Lead to lead_status converted stamps converted_on with the
current time exactly when the lead was not already converted; re-setting
converted on an already-converted lead leaves converted_on unchanged. -/
theorem c9_converted_on_set_once (db : DB) (u : User) (lid : Nat) (now : Int)
    (l : Lead) (d : LeadUpdate)
    (hfind : db.leads.find? (updateLeadPred u lid) = some l)
    (hds : d.lead_status = some (some "converted")) :
    (l.lead_status ≠ "converted" →
      ∃ db', update_lead db u lid d now = .ok (l.id, db')
        ∧ ∃ l' ∈ db'.leads, l'.id = l.id ∧ l'.lead_status = "converted"
            ∧ l'.converted_on = some now)
    ∧ (l.lead_status = "converted" →
      ∃ db', update_lead db u lid d now = .ok (l.id, db')
        ∧ ∃ l' ∈ db'.leads, l'.id = l.id ∧ l'.lead_status = "converted"
            ∧ l'.converted_on = l.converted_on) := by
  obtain ⟨hkst, hkco, hkid⟩ := applyLeadTextFields_keeps l d
  obtain ⟨hst, hid, hco1, hco2⟩ := applyLeadStatus_converted (applyLeadTextFields l d) d now hds
  have hfid : (leadAfterUpdate u l d now).id = l.id := by
    simp only [leadAfterUpdate]
    rw [hid, hkid]
  have hfst : (leadAfterUpdate u l d now).lead_status = "converted" := by
    simp only [leadAfterUpdate]
    rw [hst]
  have hok : update_lead db u lid d now = .ok ((leadAfterUpdate u l d now).id,
      { db with
        leads := replaceFirst (updateLeadPred u lid)
          (fun _ => leadAfterUpdate u l d now) db.leads }) := by
    simp [update_lead, hfind]
  have hmem : leadAfterUpdate u l d now ∈ replaceFirst (updateLeadPred u lid)
      (fun _ => leadAfterUpdate u l d now) db.leads :=
    replaceFirst_mem_of_find? _ _ hfind
  constructor
  · intro hne
    refine ⟨_, by rw [hok, hfid], leadAfterUpdate u l d now, hmem, hfid, hfst, ?_⟩
    simp only [leadAfterUpdate]
    rw [hco1 (by rw [hkst]; exact hne)]
  · intro heq
    refine ⟨_, by rw [hok, hfid], leadAfterUpdate u l d now, hmem, hfid, hfst, ?_⟩
    simp only [leadAfterUpdate]
    rw [hco2 (by rw [hkst]; exact heq), hkco]

/-- Witness for C9 at the fixture store: converting the open lead lNorth
stamps converted_on with the request time. -/
theorem c9_converted_on_set_once_witness :
    ∃ db', update_lead exDB uAlice 20 convertUpdate 5 = .ok (lNorth.id, db')
      ∧ ∃ l' ∈ db'.leads, l'.id = lNorth.id ∧ l'.lead_status = "converted"
          ∧ l'.converted_on = some 5 :=
  (c9_converted_on_set_once exDB uAlice 20 5 lNorth convertUpdate
    (by decide) (by decide)).1 (by decide)

end PathSixCRM
